import Mathlib

/-!
Verification development for the `tou_calculator` repository
(Taiwan time-of-use tariff engine).

The definitions below are a shallow embedding of the Python source:

  * `src/tou_calculator/models.py`  — enums, `ConsumptionTier`, `TariffRate`
  * `src/tou_calculator/tariff.py`  — `_TariffEngine`, `TariffPlan`,
    `_billing_period_group_index`, `_validate_usage_series`,
    `TariffPlan._calculate_tiered_costs`, `TariffPlan.pricing_context`
  * `src/tou_calculator/rates.py` / `factory.py` — tier normalization

Python floats are modelled as rationals (ℚ); the float special values that
the validation code can observe (NaN, ±inf) are modelled explicitly where
they matter.  Machine timestamps are modelled by their (year, month) or
(date, hour, minute) components, which is all the embedded code reads.
-/

/-- Season enum from models.py (`SeasonType`). -/
inductive SeasonType where
  | summer
  | non_summer
deriving DecidableEq, Repr

/-- String value of a `SeasonType`, as in the Python `Enum.value`. -/
def SeasonType.value : SeasonType → String
  | .summer => "summer"
  | .non_summer => "non_summer"

/-- Period enum from models.py (`PeriodType`). -/
inductive PeriodType where
  | peak
  | semi_peak
  | off_peak
deriving DecidableEq, Repr

/-- String value of a `PeriodType`, as in the Python `Enum.value`. -/
def PeriodType.value : PeriodType → String
  | .peak => "peak"
  | .semi_peak => "semi_peak"
  | .off_peak => "off_peak"

/-- Billing cycle enum from models.py (`BillingCycleType`). -/
inductive BillingCycleType where
  | monthly
  | odd_month
  | even_month
deriving DecidableEq, Repr

/-- Consumption tier record from models.py (`ConsumptionTier`); float
fields are modelled as ℚ. -/
structure ConsumptionTier where
  start_kwh : ℚ
  end_kwh : ℚ
  summer_cost : ℚ
  non_summer_cost : ℚ
deriving DecidableEq, Repr

/-- Tier-end normalization shared by `TariffJSONLoader.get_residential_non_tou_rate`
(rates.py) and `_normalize_tiers` (factory.py): a JSON tier whose `max` is
null becomes `end_kwh = 999999.0`, otherwise `float(max)` is kept. -/
def normalizeTierEnd (maxVal : Option ℚ) : ℚ :=
  match maxVal with
  | none => 999999
  | some v => v

/-- Season-specific unit cost chosen inside the tier walk of
`TariffPlan._calculate_tiered_costs` (tariff.py):
`tier.summer_cost if season_label == SeasonType.SUMMER.value else tier.non_summer_cost`. -/
def tierUnitCost (tier : ConsumptionTier) (seasonLabel : String) : ℚ :=
  if seasonLabel = "summer" then tier.summer_cost else tier.non_summer_cost

/-- Tier multiplier of `TariffPlan._calculate_tiered_costs`:
`2 if self.billing_cycle_type != BillingCycleType.MONTHLY else 1`. -/
def tierMultiplier (cycle : BillingCycleType) : ℚ :=
  if cycle ≠ BillingCycleType.monthly then 2 else 1

/-- Effective upper boundary of a tier in `_calculate_tiered_costs`:
`tier_end = tier.end_kwh if tier.end_kwh < 999999 else float("inf")` followed by
`tier_end = tier_end if tier_multiplier == 1 else tier_end * tier_multiplier`.
`none` stands for `float("inf")` (and `inf * 2 == inf`). -/
def effTierEnd (mult : ℚ) (tier : ConsumptionTier) : Option ℚ :=
  if tier.end_kwh < 999999 then
    some (if mult = 1 then tier.end_kwh else tier.end_kwh * mult)
  else
    none

/-- The progressive tier walk of `TariffPlan._calculate_tiered_costs`
(tariff.py): iterate sorted tiers; stop when nothing remains; in each tier
consume `min(remaining, tier_end - last_limit)` at the season-specific unit
cost, then carry `last_limit = tier_end`.  When `effTierEnd` is `none`
(`float("inf")` in the source) the Python loop computes
`min(remaining, inf - last_limit) = remaining`, so the whole remainder is
consumed, `remaining` becomes exactly 0 and every later iteration hits the
`remaining <= 0: break` guard — hence the recursion stops there with the
same total. -/
def tieredWalk (mult : ℚ) (seasonLabel : String) :
    List ConsumptionTier → ℚ → ℚ → ℚ
  | [], _, _ => 0
  | tier :: rest, remaining, lastLimit =>
    if remaining ≤ 0 then 0
    else
      match effTierEnd mult tier with
      | some tierEnd =>
        let usageInTier := min remaining (tierEnd - lastLimit)
        usageInTier * tierUnitCost tier seasonLabel +
          tieredWalk mult seasonLabel rest (remaining - usageInTier) tierEnd
      | none => remaining * tierUnitCost tier seasonLabel

/-- Tier ordering of `_calculate_tiered_costs`:
`sorted(self.rates.tiered_rates, key=lambda x: x.start_kwh)` (Python's sort is
stable; `List.insertionSort` with `≤` on the key is also stable). -/
def sortTiers (tiers : List ConsumptionTier) : List ConsumptionTier :=
  tiers.insertionSort (fun a b => a.start_kwh ≤ b.start_kwh)

/-- Cost of a single billing-period group in
`TariffPlan._calculate_tiered_costs`: the group's usage sum and
representative season label are the inputs; a zero total short-circuits to
cost 0.0, otherwise the tier walk runs with `remaining = total`,
`last_limit = 0`. -/
def tieredCostForPeriod (cycle : BillingCycleType) (tiers : List ConsumptionTier)
    (totalKwh : ℚ) (seasonLabel : String) : ℚ :=
  if totalKwh = 0 then 0
  else tieredWalk (tierMultiplier cycle) seasonLabel (sortTiers tiers) totalKwh 0

/-- Billing-period grouping of `_billing_period_group_index` (tariff.py),
applied to one timestamp's (year, month).  MONTHLY keeps (year, month);
ODD_MONTH uses `group = (month // 2) * 2 + 1`, forces month 1 to group 1,
and sends month 12 to group 1 of the next year; EVEN_MONTH uses
`group = ((month + 1) // 2) * 2` with no year change. -/
def billingPeriodGroupIndex (cycle : BillingCycleType) (year month : ℕ) : ℕ × ℕ :=
  match cycle with
  | .monthly => (year, month)
  | .odd_month =>
    let g := (month / 2) * 2 + 1
    let g := if month = 1 then 1 else g
    if month = 12 then (year + 1, 1) else (year, g)
  | .even_month => (year, ((month + 1) / 2) * 2)

/-- Tier fixture of spec §8 "Tier-walk exactness": boundaries [0,120] then
(120,∞) with non-summer costs 1.78 / 2.26 (summer costs 2.38 / 3.52 as in the
built-in residential_non_tou first two tiers). -/
def specTiers : List ConsumptionTier :=
  [⟨0, 120, 2.38, 1.78⟩, ⟨120, 999999, 3.52, 2.26⟩]

/-- Tier fixture with a declared gap: the second tier claims to start at
200 although the first ends at 100. -/
def gapTiers : List ConsumptionTier :=
  [⟨0, 100, 0, 1⟩, ⟨200, 999999, 0, 2⟩]

/-- Tier fixture with a declared overlap: the second tier claims to start at
50 although the first ends at 100. -/
def overlapTiers : List ConsumptionTier :=
  [⟨0, 100, 0, 1⟩, ⟨50, 999999, 0, 2⟩]

/-- Projection of the tier fields that the walk of
`_calculate_tiered_costs` actually reads: `end_kwh`, `summer_cost`,
`non_summer_cost` (never `start_kwh`). -/
def tierProj (tier : ConsumptionTier) : ℚ × ℚ × ℚ :=
  (tier.end_kwh, tier.summer_cost, tier.non_summer_cost)

lemma effTierEnd_eq_of_end_eq {t u : ConsumptionTier} (mult : ℚ)
    (h : t.end_kwh = u.end_kwh) : effTierEnd mult t = effTierEnd mult u := by
  simp [effTierEnd, h]

lemma tierUnitCost_eq_of_costs_eq {t u : ConsumptionTier} (s : String)
    (hs : t.summer_cost = u.summer_cost)
    (hn : t.non_summer_cost = u.non_summer_cost) :
    tierUnitCost t s = tierUnitCost u s := by
  simp [tierUnitCost, hs, hn]

lemma tieredWalk_eq_of_map_proj_eq (mult : ℚ) (s : String) :
    ∀ (l1 l2 : List ConsumptionTier), l1.map tierProj = l2.map tierProj →
      ∀ (rem lim : ℚ), tieredWalk mult s l1 rem lim = tieredWalk mult s l2 rem lim := by
  intro l1
  induction l1 with
  | nil =>
    intro l2 h rem lim
    rw [List.map_nil, eq_comm, List.map_eq_nil_iff] at h
    subst h
    rfl
  | cons t ts ih =>
    intro l2 h rem lim
    cases l2 with
    | nil => simp at h
    | cons u us =>
      simp only [List.map_cons, List.cons.injEq] at h
      obtain ⟨h1, h2⟩ := h
      have hend : t.end_kwh = u.end_kwh := congrArg Prod.fst h1
      have hsc : t.summer_cost = u.summer_cost :=
        congrArg (fun p => p.2.1) h1
      have hnc : t.non_summer_cost = u.non_summer_cost :=
        congrArg (fun p => p.2.2) h1
      simp only [tieredWalk]
      rw [effTierEnd_eq_of_end_eq mult hend, tierUnitCost_eq_of_costs_eq s hsc hnc]
      cases hE : effTierEnd mult u with
      | none => rfl
      | some e => simp only [ih us h2]

/-- C3: ODD_MONTH billing grouping — month 1 stays at group 1 of the same
year, months 2..11 map to ((m / 2) * 2) + 1 of the same year, month 12 maps
to group 1 of the following year; Dec 2024 and Jan 2025 share the key
(2025, 1), Feb and Mar 2025 share the key (2025, 3). -/
theorem odd_month_grouping (y : ℕ) :
    billingPeriodGroupIndex .odd_month y 1 = (y, 1) ∧
    (∀ m : ℕ, 2 ≤ m → m ≤ 11 →
      billingPeriodGroupIndex .odd_month y m = (y, (m / 2) * 2 + 1)) ∧
    billingPeriodGroupIndex .odd_month y 12 = (y + 1, 1) ∧
    (billingPeriodGroupIndex .odd_month 2024 12 = (2025, 1) ∧
     billingPeriodGroupIndex .odd_month 2025 1 = (2025, 1)) ∧
    (billingPeriodGroupIndex .odd_month 2025 2 = (2025, 3) ∧
     billingPeriodGroupIndex .odd_month 2025 3 = (2025, 3)) := by
  refine ⟨by simp [billingPeriodGroupIndex], ?_, by simp [billingPeriodGroupIndex],
    ⟨by decide, by decide⟩, ⟨by decide, by decide⟩⟩
  intro m h2 h11
  have h1 : m ≠ 1 := by omega
  have h12 : m ≠ 12 := by omega
  simp [billingPeriodGroupIndex, h1, h12]

theorem odd_month_grouping_witness :
    2 ≤ 4 ∧ 4 ≤ 11 ∧ billingPeriodGroupIndex .odd_month 2025 4 = (2025, 5) :=
  ⟨by decide, by decide,
    ((odd_month_grouping 2025).2.1 4 (by decide) (by decide)).trans (by decide)⟩

/-- C4: EVEN_MONTH billing grouping — every month m of year y maps to group
((m + 1) / 2) * 2 of the same year, with no year-crossing: Dec 2024 keys at
(2024, 12) and Jan 2025 keys at (2025, 2), two different group keys. -/
theorem even_month_grouping :
    (∀ y m : ℕ, billingPeriodGroupIndex .even_month y m = (y, ((m + 1) / 2) * 2)) ∧
    (∀ y : ℕ, billingPeriodGroupIndex .even_month y 12 = (y, 12) ∧
      billingPeriodGroupIndex .even_month (y + 1) 1 = (y + 1, 2)) ∧
    (billingPeriodGroupIndex .even_month 2024 12 = (2024, 12) ∧
     billingPeriodGroupIndex .even_month 2025 1 = (2025, 2) ∧
     billingPeriodGroupIndex .even_month 2024 12 ≠
       billingPeriodGroupIndex .even_month 2025 1) := by
  refine ⟨fun y m => by simp [billingPeriodGroupIndex], fun y => ⟨?_, ?_⟩,
    by decide, by decide, by decide⟩
  · simp [billingPeriodGroupIndex]
  · simp [billingPeriodGroupIndex]

/-- C5: under any non-MONTHLY billing cycle the tier multiplier is 2 and
every finite tier boundary (end_kwh < 999999) is doubled before the walk,
while MONTHLY keeps boundaries unmodified; with the spec tiers under
ODD_MONTH, a 250 kWh billing-period total costs 240·1.78 + 10·2.26 = 449.8. -/
theorem bimonthly_tier_doubling :
    tierMultiplier .odd_month = 2 ∧
    tierMultiplier .even_month = 2 ∧
    tierMultiplier .monthly = 1 ∧
    (∀ tier : ConsumptionTier, tier.end_kwh < 999999 →
      effTierEnd (tierMultiplier .odd_month) tier = some (tier.end_kwh * 2) ∧
      effTierEnd (tierMultiplier .even_month) tier = some (tier.end_kwh * 2) ∧
      effTierEnd (tierMultiplier .monthly) tier = some tier.end_kwh) ∧
    tieredCostForPeriod .odd_month specTiers 250 "non_summer" = 449.8 := by
  have hodd : tierMultiplier .odd_month = 2 := by
    simp [tierMultiplier, show (BillingCycleType.odd_month = BillingCycleType.monthly) = False
      from by decide]
  have heven : tierMultiplier .even_month = 2 := by
    simp [tierMultiplier, show (BillingCycleType.even_month = BillingCycleType.monthly) = False
      from by decide]
  have hmon : tierMultiplier .monthly = 1 := by simp [tierMultiplier]
  refine ⟨hodd, heven, hmon, ?_, ?_⟩
  · intro tier h
    refine ⟨?_, ?_, ?_⟩ <;> simp [effTierEnd, h, hodd, heven, hmon]
  · norm_num [tieredCostForPeriod, sortTiers, List.insertionSort, List.orderedInsert,
      specTiers, tieredWalk, effTierEnd, tierUnitCost, tierMultiplier, min_def,
      show ("non_summer" = "summer") = False from by decide,
      show (BillingCycleType.odd_month = BillingCycleType.monthly) = False from by decide]

theorem bimonthly_tier_doubling_witness :
    ((⟨0, 120, 2.38, 1.78⟩ : ConsumptionTier).end_kwh < 999999) ∧
    effTierEnd (tierMultiplier .odd_month) ⟨0, 120, 2.38, 1.78⟩ =
      some ((⟨0, 120, 2.38, 1.78⟩ : ConsumptionTier).end_kwh * 2) :=
  ⟨by norm_num, (bimonthly_tier_doubling.2.2.2.1 ⟨0, 120, 2.38, 1.78⟩ (by norm_num)).1⟩

/-- C6 counterexample: with the claimed MONTHLY 2-tier schedule
([0,120] at 1.78 then (120,∞) at 2.26, non-summer), a billing-period total
of 200 kWh does NOT cost 200 × 1.78 = 356 — the walk crosses into the
second tier at the 120 kWh boundary. -/
theorem tier_walk_200_not_356 :
    tieredCostForPeriod .monthly specTiers 200 "non_summer" ≠ 356 := by
  norm_num [tieredCostForPeriod, sortTiers, List.insertionSort, List.orderedInsert,
    specTiers, tieredWalk, effTierEnd, tierUnitCost, tierMultiplier, min_def,
    show ("non_summer" = "summer") = False from by decide]

/-- C6 (amended): the progressive walk consumes min(remaining, tier width)
from each tier in ascending order at that tier's season-specific cost, with
usage exactly at a boundary belonging to the lower tier; for the MONTHLY
2-tier non-summer schedule, 200 kWh costs 120·1.78 + 80·2.26 = 394.4,
300 kWh costs 120·1.78 + 180·2.26 = 620.4, 120 kWh (exact boundary) costs
120·1.78 = 213.6, and the summer rate column is used for summer labels. -/
theorem tier_walk_exact :
    tieredCostForPeriod .monthly specTiers 200 "non_summer" = 394.4 ∧
    tieredCostForPeriod .monthly specTiers 300 "non_summer" = 620.4 ∧
    tieredCostForPeriod .monthly specTiers 120 "non_summer" = 213.6 ∧
    tieredCostForPeriod .monthly specTiers 200 "summer" = 120 * 2.38 + 80 * 3.52 := by
  refine ⟨?_, ?_, ?_, ?_⟩ <;>
    norm_num [tieredCostForPeriod, sortTiers, List.insertionSort, List.orderedInsert,
      specTiers, tieredWalk, effTierEnd, tierUnitCost, tierMultiplier, min_def,
      show ("non_summer" = "summer") = False from by decide,
      show ("summer" = "summer") = True from by decide]

/-- C9: a tier upper bound at or above 999999 kWh means "no limit": its
effective end is infinite for every multiplier (so bimonthly doubling cannot
affect it), the JSON loaders normalize a null tier maximum to 999999.0, and
the walk cannot distinguish two tiers whose bounds are both at or above
999999 — a genuine finite boundary of 999999 kWh or more is inexpressible. -/
theorem tier_no_limit_sentinel :
    normalizeTierEnd none = 999999 ∧
    (∀ q : ℚ, normalizeTierEnd (some q) = q) ∧
    (∀ (mult : ℚ) (tier : ConsumptionTier), 999999 ≤ tier.end_kwh →
      effTierEnd mult tier = none) ∧
    (∀ (mult : ℚ) (seasonLabel : String) (t u : ConsumptionTier)
        (rest : List ConsumptionTier) (remaining lastLimit : ℚ),
      999999 ≤ t.end_kwh → 999999 ≤ u.end_kwh →
      t.summer_cost = u.summer_cost → t.non_summer_cost = u.non_summer_cost →
      tieredWalk mult seasonLabel (t :: rest) remaining lastLimit =
        tieredWalk mult seasonLabel (u :: rest) remaining lastLimit) := by
  refine ⟨rfl, fun q => rfl, ?_, ?_⟩
  · intro mult tier h
    simp [effTierEnd, not_lt.mpr h]
  · intro mult s t u rest remaining lastLimit ht hu hsc hnc
    simp only [tieredWalk, effTierEnd, not_lt.mpr ht, not_lt.mpr hu, if_false,
      tierUnitCost, hsc, hnc]

theorem tier_no_limit_sentinel_witness :
    ((999999 : ℚ) ≤ (⟨240, 999999, 5, 7⟩ : ConsumptionTier).end_kwh) ∧
    ((999999 : ℚ) ≤ (⟨240, 1000000, 5, 7⟩ : ConsumptionTier).end_kwh) ∧
    tieredWalk 2 "summer" [⟨240, 999999, 5, 7⟩] 3 0 =
      tieredWalk 2 "summer" [⟨240, 1000000, 5, 7⟩] 3 0 :=
  ⟨by decide, by decide,
    tier_no_limit_sentinel.2.2.2 2 "summer" ⟨240, 999999, 5, 7⟩ ⟨240, 1000000, 5, 7⟩
      [] 3 0 (by decide) (by decide) rfl rfl⟩

/-- C10: the tiered walk reads a tier's declared start_kwh only through the
sort: the cost is a function of the sorted sequence of
(end_kwh, summer_cost, non_summer_cost) projections alone, every effective
lower bound being the previous effective end starting from 0 — so tier
tables with declared gaps (gapTiers) or overlaps (overlapTiers) are consumed
as contiguous brackets: 150 kWh costs 100·1 + 50·2 = 200 under both. -/
theorem tier_walk_contiguous :
    (∀ (cycle : BillingCycleType) (seasonLabel : String)
        (t1 t2 : List ConsumptionTier) (u : ℚ),
      (sortTiers t1).map tierProj = (sortTiers t2).map tierProj →
      tieredCostForPeriod cycle t1 u seasonLabel =
        tieredCostForPeriod cycle t2 u seasonLabel) ∧
    tieredCostForPeriod .monthly gapTiers 150 "non_summer" = 200 ∧
    tieredCostForPeriod .monthly overlapTiers 150 "non_summer" = 200 := by
  refine ⟨?_, ?_, ?_⟩
  · intro cycle s t1 t2 u h
    unfold tieredCostForPeriod
    by_cases hu : u = 0
    · simp [hu]
    · simp only [hu, if_false]
      exact tieredWalk_eq_of_map_proj_eq (tierMultiplier cycle) s _ _ h u 0
  · norm_num [tieredCostForPeriod, sortTiers, List.insertionSort, List.orderedInsert,
      gapTiers, tieredWalk, effTierEnd, tierUnitCost, tierMultiplier, min_def,
      show ("non_summer" = "summer") = False from by decide]
  · norm_num [tieredCostForPeriod, sortTiers, List.insertionSort, List.orderedInsert,
      overlapTiers, tieredWalk, effTierEnd, tierUnitCost, tierMultiplier, min_def,
      show ("non_summer" = "summer") = False from by decide]

theorem tier_walk_contiguous_witness :
    (sortTiers gapTiers).map tierProj = (sortTiers overlapTiers).map tierProj ∧
    tieredCostForPeriod .monthly gapTiers 150 "non_summer" =
      tieredCostForPeriod .monthly overlapTiers 150 "non_summer" :=
  ⟨by decide,
    tier_walk_contiguous.1 .monthly "non_summer" gapTiers overlapTiers 150 (by decide)⟩

/-- Season argument as passed to `TariffRate.get_cost` in models.py: either a
`SeasonType` enum member or a plain string (the dict keys have type
`SeasonType | str`). -/
inductive SeasonArg where
  | enum (s : SeasonType)
  | str (s : String)
deriving DecidableEq, Repr

/-- Period argument as passed to `TariffRate.get_cost`: either a
`PeriodType` enum member or a plain string. -/
inductive PeriodArg where
  | enum (p : PeriodType)
  | str (s : String)
deriving DecidableEq, Repr

/-- The `_label_value` helper of models.py applied to a season argument:
`value.value` for an enum, `str(value)` otherwise. -/
def seasonLabelValue : SeasonArg → String
  | .enum s => s.value
  | .str s => s

/-- The `_label_value` helper of models.py applied to a period argument. -/
def periodLabelValue : PeriodArg → String
  | .enum p => p.value
  | .str s => s

/-- Rate table from models.py (`TariffRate`): a (season, period) → cost dict
(modelled as an association list with distinct keys, Python dict lookup being
first match) plus a list of consumption tiers. -/
structure TariffRate where
  period_costs : List ((SeasonArg × PeriodArg) × ℚ)
  tiered_rates : List ConsumptionTier

/-- Python dict lookup `self.period_costs.get(key)` on the association-list
model: first entry whose key equals the query. -/
def lookupPeriodCost (costs : List ((SeasonArg × PeriodArg) × ℚ))
    (key : SeasonArg × PeriodArg) : Option ℚ :=
  match costs with
  | [] => none
  | (k, c) :: rest => if k = key then some c else lookupPeriodCost rest key

/-- `TariffRate.get_cost` from models.py: exact (season, period) key first,
then the string-normalized `( _label_value(season), _label_value(period) )`
key, then the 0.0 default of `dict.get(..., 0.0)`. -/
def TariffRate.get_cost (r : TariffRate) (season : SeasonArg) (period : PeriodArg) : ℚ :=
  match lookupPeriodCost r.period_costs (season, period) with
  | some c => c
  | none =>
    (lookupPeriodCost r.period_costs
      (SeasonArg.str (seasonLabelValue season),
       PeriodArg.str (periodLabelValue period))).getD 0

/-- Error message raised by `TariffPlan.pricing_context` (tariff.py) when a
usage amount is supplied against a tiered plan. -/
def tieredPricingError : String :=
  "usage-based pricing is not supported for tiered plans; use calculate_costs for monthly billing totals."

/-- Scalar branch of `TariffPlan.pricing_context` (tariff.py), reduced to the
fields the rate logic produces: the guard
`if usage_kwh is not None and self.rates.tiered_rates: raise InvalidUsageInput`
runs first; then for a non-tiered rate `unit_cost = get_cost(season, period)`
and `cost = usage * unit_cost` when usage is given, while a tiered rate
leaves both `rate` and `cost` as `None`.  The (season, period) context pair
is computed upstream by `get_context` and passed in here. -/
def pricingContextScalar (rates : TariffRate) (season : SeasonArg) (period : PeriodArg)
    (usage_kwh : Option ℚ) : Except String (Option ℚ × Option ℚ) :=
  if usage_kwh.isSome ∧ rates.tiered_rates ≠ [] then
    .error tieredPricingError
  else if rates.tiered_rates = [] then
    let unit := rates.get_cost season period
    .ok (some unit, usage_kwh.map (fun u => u * unit))
  else
    .ok (none, none)

/-- Index branch of `TariffPlan.pricing_context` (tariff.py): same guard
first; for a tiered rate the `rate` and `cost` series are all-`None`; for a
non-tiered rate the per-timestamp unit costs come from `get_cost` and the
cost column is the aligned product with the usage series when given. -/
def pricingContextIndex (rates : TariffRate) (contexts : List (SeasonArg × PeriodArg))
    (usage_kwh : Option (List ℚ)) : Except String (List (Option ℚ × Option ℚ)) :=
  if usage_kwh.isSome ∧ rates.tiered_rates ≠ [] then
    .error tieredPricingError
  else if rates.tiered_rates ≠ [] then
    .ok (contexts.map fun _ => (none, none))
  else
    let rateList := contexts.map fun c => rates.get_cost c.1 c.2
    match usage_kwh with
    | none => .ok (rateList.map fun r => (some r, none))
    | some us => .ok ((us.zip rateList).map fun p => (some p.2, some (p.1 * p.2)))

/-- C8: `TariffRate.get_cost` returns the cost under the exact
(season, period) key when present, otherwise the cost under the
string-normalized key pair when present, otherwise 0.0 — it is total and
never fails on a missing combination. -/
theorem get_cost_fallback_chain (r : TariffRate) (season : SeasonArg) (period : PeriodArg) :
    (∀ c : ℚ, lookupPeriodCost r.period_costs (season, period) = some c →
      r.get_cost season period = c) ∧
    (lookupPeriodCost r.period_costs (season, period) = none →
      ∀ c : ℚ, lookupPeriodCost r.period_costs
          (SeasonArg.str (seasonLabelValue season),
           PeriodArg.str (periodLabelValue period)) = some c →
        r.get_cost season period = c) ∧
    (lookupPeriodCost r.period_costs (season, period) = none →
      lookupPeriodCost r.period_costs
          (SeasonArg.str (seasonLabelValue season),
           PeriodArg.str (periodLabelValue period)) = none →
        r.get_cost season period = 0) := by
  refine ⟨?_, ?_, ?_⟩
  · intro c h
    simp [TariffRate.get_cost, h]
  · intro h c hc
    simp [TariffRate.get_cost, h, hc]
  · intro h hc
    simp [TariffRate.get_cost, h, hc]

/-- Rate fixture whose only entry is stored under string-normalized keys. -/
def strKeyRate : TariffRate :=
  ⟨[((SeasonArg.str "summer", PeriodArg.str "peak"), 5)], []⟩

theorem get_cost_fallback_chain_witness :
    lookupPeriodCost strKeyRate.period_costs
        (SeasonArg.enum .summer, PeriodArg.enum .peak) = none ∧
    lookupPeriodCost strKeyRate.period_costs
        (SeasonArg.str (seasonLabelValue (SeasonArg.enum .summer)),
         PeriodArg.str (periodLabelValue (PeriodArg.enum .peak))) = some 5 ∧
    strKeyRate.get_cost (SeasonArg.enum .summer) (PeriodArg.enum .peak) = 5 :=
  ⟨by decide, by decide,
    (get_cost_fallback_chain strKeyRate (SeasonArg.enum .summer)
        (PeriodArg.enum .peak)).2.1 (by decide) 5 (by decide)⟩

/-- C7: against a tiered-rate plan, `pricing_context` yields `None` for both
rate and cost on every pointwise query, scalar or index form, and raises the
invalid-usage error before computing anything whenever a usage amount is
supplied. -/
theorem tiered_pricing_guard (rates : TariffRate) (season : SeasonArg)
    (period : PeriodArg) (contexts : List (SeasonArg × PeriodArg))
    (h : rates.tiered_rates ≠ []) :
    pricingContextScalar rates season period none = .ok (none, none) ∧
    pricingContextIndex rates contexts none =
      .ok (contexts.map fun _ => (none, none)) ∧
    (∀ u : ℚ, pricingContextScalar rates season period (some u) =
      .error tieredPricingError) ∧
    (∀ us : List ℚ, pricingContextIndex rates contexts (some us) =
      .error tieredPricingError) := by
  refine ⟨?_, ?_, ?_, ?_⟩
  · simp [pricingContextScalar, h]
  · simp [pricingContextIndex, h]
  · intro u
    simp [pricingContextScalar, h]
  · intro us
    simp [pricingContextIndex, h]

/-- Tiered rate fixture with integer costs. -/
def intTieredRate : TariffRate := ⟨[], [⟨0, 120, 2, 1⟩]⟩

theorem tiered_pricing_guard_witness :
    intTieredRate.tiered_rates ≠ [] ∧
    pricingContextScalar intTieredRate (SeasonArg.enum .summer)
        (PeriodArg.enum .peak) (some 3) = .error tieredPricingError :=
  ⟨by decide,
    (tiered_pricing_guard intTieredRate (SeasonArg.enum .summer)
        (PeriodArg.enum .peak) [] (by decide)).2.2.1 3⟩

/-- Value of one usage sample as the validation code can observe it: a
finite float (modelled as ℚ), NaN, +inf or -inf. -/
inductive UsageVal where
  | num (q : ℚ)
  | nan
  | inf
  | neg_inf
deriving DecidableEq, Repr

/-- `pandas.isna` on one value: true exactly for NaN (±inf are not NA). -/
def usageIsNA : UsageVal → Bool
  | .nan => true
  | _ => false

/-- The elementwise `usage_kwh < 0` comparison of `_validate_usage_series`:
IEEE-754 gives `nan < 0 == False`, `inf < 0 == False`, `-inf < 0 == True`. -/
def usageLtZero : UsageVal → Bool
  | .num q => decide (q < 0)
  | .neg_inf => true
  | _ => false

/-- `DatetimeIndex.is_monotonic_increasing`: non-decreasing (equal
neighbouring timestamps are permitted). -/
def indexMonotonic : List ℤ → Bool
  | [] => true
  | [_] => true
  | a :: b :: rest => decide (a ≤ b) && indexMonotonic (b :: rest)

/-- `_validate_usage_series` from tariff.py on an already series-shaped,
datetime-indexed input: NaN check first, then the negative check, then the
index-order check; no other check exists (in particular no `isinf` /
`isfinite` check). -/
def validateUsageSeries (usage : List (ℤ × UsageVal)) : Except String Unit :=
  if usage.any (fun p => usageIsNA p.2) then
    .error "usage series contains NaN values"
  else if usage.any (fun p => usageLtZero p.2) then
    .error "usage values must be non-negative"
  else if !(indexMonotonic (usage.map Prod.fst)) then
    .error "usage timestamps must be ordered"
  else
    .ok ()

/-- `TariffPlan.calculate_costs` (tariff.py) runs `_validate_usage_series`
first and only then dispatches to the tiered or the TOU cost path; the cost
path is abstracted here as an arbitrary function, one instance per plan
type, so a statement quantified over `computeCost` holds for every plan. -/
def calculateCostsChecked {α : Type} (computeCost : List (ℤ × UsageVal) → α)
    (usage : List (ℤ × UsageVal)) : Except String α :=
  match validateUsageSeries usage with
  | .error e => .error e
  | .ok _ => .ok (computeCost usage)

/-- C1: `calculate_costs` rejects, for every plan type and before any cost
is computed, a series with a NaN, a negative value or an out-of-order index
— but a series containing +inf passes `_validate_usage_series` unchecked
(no isinf check exists) and the cost path runs on it, although the repo's
own test `test_calculate_bill_rejects_infinite_usage` and the spec require
infinite values to be rejected. -/
theorem usage_validation_behavior :
    (∀ (α : Type) (computeCost : List (ℤ × UsageVal) → α),
      calculateCostsChecked computeCost [(0, .num 1), (1, .nan)] =
        .error "usage series contains NaN values" ∧
      calculateCostsChecked computeCost [(0, .num 1), (1, .num (-1))] =
        .error "usage values must be non-negative" ∧
      calculateCostsChecked computeCost [(0, .num 1), (1, .neg_inf)] =
        .error "usage values must be non-negative" ∧
      calculateCostsChecked computeCost [(1, .num 1), (0, .num 2)] =
        .error "usage timestamps must be ordered") ∧
    validateUsageSeries [(0, .num 1), (1, .inf)] = .ok () ∧
    (∀ (α : Type) (computeCost : List (ℤ × UsageVal) → α),
      calculateCostsChecked computeCost [(0, .num 1), (1, .inf)] =
        .ok (computeCost [(0, .num 1), (1, .inf)])) := by
  refine ⟨?_, by rfl, ?_⟩
  · intro α computeCost
    refine ⟨?_, ?_, ?_, ?_⟩ <;> rfl
  · intro α computeCost
    rfl

/-- Time-of-day slot as the engine consumes it: `_build_lookup_table`
computes `start_min = slot.start.hour * 60 + slot.start.minute` (and likewise
for the end), and the profile builders parse "HH:MM" strings, so slots live
at minute resolution; `period` is the slot's rate-period label.  The types of
season, day-type and period labels are kept abstract — the engine only ever
compares them for equality. -/
structure TimeSlotM (P : Type) where
  startMin : ℕ
  stopMin : ℕ
  period : P

/-- Day schedule from models.py: ordered slots of one (season, day-type). -/
structure DayScheduleM (P : Type) where
  slots : List (TimeSlotM P)

/-- `TariffProfile` from tariff.py: season and day-type strategies (as plain
functions on dates plus their `get_all_*` enumerations), a schedule dict
(association list with distinct keys, insertion-ordered like a Python dict)
and the default period. -/
structure TariffProfileM (DT S D P : Type) where
  seasonOf : DT → S
  allSeasons : List S
  dayTypeOf : DT → D
  allDayTypes : List D
  schedules : List ((S × D) × DayScheduleM P)
  default_period : P

/-- A timestamp as the engine reads it: its calendar date (opaque, only fed
to the strategies) and its hour/minute of day. -/
structure TimestampM (DT : Type) where
  date : DT
  hour : ℕ
  minute : ℕ

/-- Minute-of-day of a timestamp: `index.hour * 60 + index.minute` in
`_TariffEngine.evaluate`, and the time object compared by
`_find_slot_type`. -/
def TimestampM.minuteOfDay {DT : Type} (t : TimestampM DT) : ℕ :=
  t.hour * 60 + t.minute

/-- First test of `_TariffEngine._find_slot_type`:
`slot.start <= t < slot.end`. -/
def slotMatchLinear {P : Type} (slot : TimeSlotM P) (m : ℕ) : Bool :=
  decide (slot.startMin ≤ m) && decide (m < slot.stopMin)

/-- Second test of `_find_slot_type`: `slot.start > slot.end` and
(`t >= slot.start or t < slot.end`). -/
def slotMatchWrap {P : Type} (slot : TimeSlotM P) (m : ℕ) : Bool :=
  decide (slot.stopMin < slot.startMin) &&
    (decide (slot.startMin ≤ m) || decide (m < slot.stopMin))

/-- `_TariffEngine._find_slot_type`: scan slots in declared order, return the
first slot whose linear or wrap-around test matches, else the default. -/
def findSlotType {P : Type} (m : ℕ) : List (TimeSlotM P) → P → P
  | [], dflt => dflt
  | slot :: rest, dflt =>
    if slotMatchLinear slot m then slot.period
    else if slotMatchWrap slot m then slot.period
    else findSlotType m rest dflt

/-- Python dict lookup `self.profile.schedules.get((season, day_type))` on
the association-list model. -/
def lookupSchedule {S D P : Type} [DecidableEq S] [DecidableEq D] :
    List ((S × D) × DayScheduleM P) → S × D → Option (DayScheduleM P)
  | [], _ => none
  | (k, sched) :: rest, key =>
    if k = key then some sched else lookupSchedule rest key

/-- `_TariffEngine.get_period_type_scalar` (tariff.py): season and day type
from the strategies, schedule lookup (default when absent), then the
first-match slot scan. -/
def get_period_type_scalar {DT S D P : Type} [DecidableEq S] [DecidableEq D]
    (prof : TariffProfileM DT S D P) (t : TimestampM DT) : P :=
  match lookupSchedule prof.schedules (prof.seasonOf t.date, prof.dayTypeOf t.date) with
  | none => prof.default_period
  | some sched => findSlotType t.minuteOfDay sched.slots prof.default_period

/-- The `_period_types` list of `_build_lookup_table`: the default period
first, then each distinct slot period in first-appearance order over the
schedule dict values. -/
def buildPeriodTypes {DT S D P : Type} [DecidableEq P]
    (prof : TariffProfileM DT S D P) : List P :=
  prof.schedules.foldl
    (fun acc entry =>
      entry.2.slots.foldl
        (fun acc slot => if slot.period ∈ acc then acc else acc ++ [slot.period])
        acc)
    [prof.default_period]

/-- Index of the first occurrence of an element, `none` when absent — the
enumerate-based `_season_map` / `_day_type_map` / `_period_map_rev` dicts of
`_build_lookup_table` (dict comprehension keeps the first index for
duplicates only if the element hashes equal; list elements are distinct in
practice, and only the first occurrence is ever produced here). -/
def firstIdx {α : Type} [DecidableEq α] : List α → α → Option ℕ
  | [], _ => none
  | x :: rest, a => if x = a then some 0 else (firstIdx rest a).map (· + 1)

/-- Minute set painted for one slot in `_build_lookup_table`:
`table[s, d, start:end] = p` when `start_min < end_min`, otherwise the
wrap-around pair of paints `table[s, d, start:] = p; table[s, d, :end] = p`
(note `start_min == end_min` falls into the wrap-around branch and paints
the whole day). -/
def paintCond {P : Type} (slot : TimeSlotM P) (m : ℕ) : Bool :=
  if slot.startMin < slot.stopMin then
    decide (slot.startMin ≤ m) && decide (m < slot.stopMin)
  else
    decide (slot.startMin ≤ m) || decide (m < slot.stopMin)

/-- One slot paint over the dense (season, day-type, minute) table, table
modelled as a function. -/
def paintSlot {P : Type} (tbl : ℕ → ℕ → ℕ → ℕ) (sIdx dIdx : ℕ)
    (slot : TimeSlotM P) (pIdx : ℕ) : ℕ → ℕ → ℕ → ℕ :=
  fun s d m => if s = sIdx ∧ d = dIdx ∧ paintCond slot m then pIdx else tbl s d m

/-- Period code painted for a slot: `self._period_map_rev[slot.period_type]`.
By construction every slot period occurs in `_period_types`, so the
`getD 0` branch of this total model never fires. -/
def periodCode {DT S D P : Type} [DecidableEq P]
    (prof : TariffProfileM DT S D P) (p : P) : ℕ :=
  (firstIdx (buildPeriodTypes prof) p).getD 0

/-- `_TariffEngine._build_lookup_table`: start from a zero table (code 0 is
the default period) and paint each schedule's slots in dict order; entries
whose season or day type is missing from the enumerations are skipped
(`if s_idx is None or d_idx is None: continue`). -/
def buildLookupTable {DT S D P : Type} [DecidableEq S] [DecidableEq D] [DecidableEq P]
    (prof : TariffProfileM DT S D P) : ℕ → ℕ → ℕ → ℕ :=
  prof.schedules.foldl
    (fun tbl entry =>
      match firstIdx prof.allSeasons entry.1.1, firstIdx prof.allDayTypes entry.1.2 with
      | some sIdx, some dIdx =>
        entry.2.slots.foldl
          (fun tbl slot => paintSlot tbl sIdx dIdx slot (periodCode prof slot.period))
          tbl
      | _, _ => tbl)
    (fun _ _ _ => 0)

/-- `_TariffEngine.evaluate` restricted to a one-element DatetimeIndex: the
season/day-type codes come from mapping through `_season_map` /
`_day_type_map` with `.fillna(0)` for labels missing from the enumerations,
the minute is `hour * 60 + minute`, the period code is read from the dense
table and mapped back through `np.array(self._period_types)[...]` (the
`getD` default is an artifact of the total model — painted codes always
index into the list). -/
def evaluateSingle {DT S D P : Type} [DecidableEq S] [DecidableEq D] [DecidableEq P]
    (prof : TariffProfileM DT S D P) (t : TimestampM DT) : P :=
  let sCode := (firstIdx prof.allSeasons (prof.seasonOf t.date)).getD 0
  let dCode := (firstIdx prof.allDayTypes (prof.dayTypeOf t.date)).getD 0
  let pCode := buildLookupTable prof sCode dCode t.minuteOfDay
  (buildPeriodTypes prof).getD pCode prof.default_period

/-- Profile whose only slot is the "00:00"–"24:00" full-day slot that the
factory emits as a default schedule: `_parse_time` turns "24:00" into
`time(0, 0)`, producing a slot with `start == end`.  Labels are numbers:
season 0, day type 0, default period 0, slot period 1. -/
def fullDaySlotProfile : TariffProfileM ℕ ℕ ℕ ℕ :=
  { seasonOf := fun _ => 0
    allSeasons := [0]
    dayTypeOf := fun _ => 0
    allDayTypes := [0]
    schedules := [((0, 0), ⟨[⟨0, 0, 1⟩]⟩)]
    default_period := 0 }

/-- C2 counterexample: on the full-day `start == end` slot profile, batch
resolution paints the whole day with the slot period (the wrap-around
branch of `_build_lookup_table` paints `[start:] ∪ [:end]` = everything),
while scalar resolution matches no slot (`start <= t < end` and
`start > end` are both false) and falls back to the default — so batch and
scalar disagree at 10:00. -/
theorem batch_scalar_divergence :
    evaluateSingle fullDaySlotProfile ⟨0, 10, 0⟩ = 1 ∧
    get_period_type_scalar fullDaySlotProfile ⟨0, 10, 0⟩ = 0 ∧
    evaluateSingle fullDaySlotProfile ⟨0, 10, 0⟩ ≠
      get_period_type_scalar fullDaySlotProfile ⟨0, 10, 0⟩ := by
  refine ⟨rfl, rfl, by decide⟩

lemma firstIdx_exists {α : Type} [DecidableEq α] {xs : List α} {a : α}
    (h : a ∈ xs) : ∃ i, firstIdx xs a = some i := by
  induction xs with
  | nil => cases h
  | cons x rest ih =>
    by_cases hx : x = a
    · exact ⟨0, by simp [firstIdx, hx]⟩
    · have hmem : a ∈ rest := by
        cases h with
        | head => exact absurd rfl hx
        | tail _ h2 => exact h2
      obtain ⟨i, hi⟩ := ih hmem
      exact ⟨i + 1, by simp [firstIdx, hx, hi]⟩

lemma firstIdx_inj {α : Type} [DecidableEq α] {xs : List α} {a b : α} {i : ℕ}
    (ha : firstIdx xs a = some i) (hb : firstIdx xs b = some i) : a = b := by
  induction xs generalizing i with
  | nil => simp [firstIdx] at ha
  | cons x rest ih =>
    rw [firstIdx] at ha hb
    by_cases hxa : x = a
    · by_cases hxb : x = b
      · exact hxa ▸ hxb
      · rw [if_pos hxa] at ha
        rw [if_neg hxb] at hb
        injection ha with ha0
        obtain ⟨j, _, hji⟩ := Option.map_eq_some'.mp hb
        omega
    · by_cases hxb : x = b
      · rw [if_neg hxa] at ha
        rw [if_pos hxb] at hb
        injection hb with hb0
        obtain ⟨j, _, hji⟩ := Option.map_eq_some'.mp ha
        omega
      · rw [if_neg hxa] at ha
        rw [if_neg hxb] at hb
        obtain ⟨j, hj, hji⟩ := Option.map_eq_some'.mp ha
        obtain ⟨k, hk, hki⟩ := Option.map_eq_some'.mp hb
        have hjk : j = k := by omega
        exact ih hj (hjk ▸ hk)

lemma firstIdx_getD {α : Type} [DecidableEq α] {xs : List α} {a : α} {i : ℕ}
    (h : firstIdx xs a = some i) (dflt : α) : xs.getD i dflt = a := by
  induction xs generalizing i with
  | nil => simp [firstIdx] at h
  | cons x rest ih =>
    by_cases hx : x = a
    · simp [firstIdx, hx] at h
      subst h
      simpa using hx
    · simp [firstIdx, hx] at h
      obtain ⟨j, hj, hji⟩ := h
      subst hji
      simpa using ih hj

lemma periodFold_append {P : Type} [DecidableEq P] (slots : List (TimeSlotM P)) :
    ∀ acc : List P, ∃ ext : List P,
      slots.foldl
        (fun acc slot => if slot.period ∈ acc then acc else acc ++ [slot.period])
        acc = acc ++ ext := by
  induction slots with
  | nil => exact fun acc => ⟨[], by simp⟩
  | cons s rest ih =>
    intro acc
    by_cases hmem : s.period ∈ acc
    · obtain ⟨ext, hext⟩ := ih acc
      exact ⟨ext, by simpa [List.foldl_cons, hmem] using hext⟩
    · obtain ⟨ext, hext⟩ := ih (acc ++ [s.period])
      refine ⟨[s.period] ++ ext, ?_⟩
      simp only [List.foldl_cons, if_neg hmem]
      rw [hext, List.append_assoc]

lemma schedFold_append {S D P : Type} [DecidableEq P]
    (entries : List ((S × D) × DayScheduleM P)) :
    ∀ acc : List P, ∃ ext : List P,
      entries.foldl
        (fun acc entry =>
          entry.2.slots.foldl
            (fun acc slot => if slot.period ∈ acc then acc else acc ++ [slot.period])
            acc)
        acc = acc ++ ext := by
  induction entries with
  | nil => exact fun acc => ⟨[], by simp⟩
  | cons e rest ih =>
    intro acc
    obtain ⟨ext1, hext1⟩ := periodFold_append e.2.slots acc
    obtain ⟨ext2, hext2⟩ := ih (acc ++ ext1)
    refine ⟨ext1 ++ ext2, ?_⟩
    simp only [List.foldl_cons]
    rw [hext1, hext2, List.append_assoc]

lemma buildPeriodTypes_head {DT S D P : Type} [DecidableEq P]
    (prof : TariffProfileM DT S D P) :
    ∃ ext : List P, buildPeriodTypes prof = prof.default_period :: ext := by
  obtain ⟨ext, hext⟩ := schedFold_append prof.schedules [prof.default_period]
  exact ⟨ext, by simpa [buildPeriodTypes] using hext⟩

lemma periodFold_mem {P : Type} [DecidableEq P] (slots : List (TimeSlotM P)) :
    ∀ (acc : List P) (slot : TimeSlotM P), slot ∈ slots →
      slot.period ∈
        slots.foldl
          (fun acc slot => if slot.period ∈ acc then acc else acc ++ [slot.period])
          acc := by
  induction slots with
  | nil => intro _ _ h; cases h
  | cons s rest ih =>
    intro acc slot hmem
    rw [List.foldl_cons]
    rcases List.mem_cons.mp hmem with heq | htail
    · subst heq
      obtain ⟨ext, hext⟩ :=
        periodFold_append rest (if slot.period ∈ acc then acc else acc ++ [slot.period])
      rw [hext]
      by_cases hin : slot.period ∈ acc
      · simp [hin]
      · simp [hin]
    · exact ih _ slot htail

lemma schedFold_mem_base {S D P : Type} [DecidableEq P]
    (entries : List ((S × D) × DayScheduleM P)) :
    ∀ (acc : List P) (x : P), x ∈ acc →
      x ∈ entries.foldl
        (fun acc entry =>
          entry.2.slots.foldl
            (fun acc slot =>
              if slot.period ∈ acc then acc else acc ++ [slot.period])
            acc)
        acc := by
  induction entries with
  | nil => intro acc x h; simpa using h
  | cons e rest ih =>
    intro acc x h
    rw [List.foldl_cons]
    apply ih
    obtain ⟨ext, hext⟩ := periodFold_append e.2.slots acc
    rw [hext]
    exact List.mem_append_left _ h

lemma schedFold_mem {S D P : Type} [DecidableEq P]
    (entries : List ((S × D) × DayScheduleM P)) :
    ∀ (acc : List P) (entry : (S × D) × DayScheduleM P), entry ∈ entries →
      ∀ sl ∈ entry.2.slots,
        sl.period ∈
          entries.foldl
            (fun acc entry =>
              entry.2.slots.foldl
                (fun acc slot =>
                  if slot.period ∈ acc then acc else acc ++ [slot.period])
                acc)
            acc := by
  induction entries with
  | nil => intro _ _ h; cases h
  | cons e rest ih =>
    intro acc entry hmem sl hsl
    rw [List.foldl_cons]
    rcases List.mem_cons.mp hmem with heq | htail
    · subst heq
      exact schedFold_mem_base rest _ _ (periodFold_mem entry.2.slots acc sl hsl)
    · exact ih _ entry htail sl hsl

lemma buildPeriodTypes_mem {DT S D P : Type} [DecidableEq P]
    (prof : TariffProfileM DT S D P) (entry : (S × D) × DayScheduleM P)
    (hmem : entry ∈ prof.schedules) (sl : TimeSlotM P)
    (hsl : sl ∈ entry.2.slots) :
    sl.period ∈ buildPeriodTypes prof :=
  schedFold_mem prof.schedules [prof.default_period] entry hmem sl hsl

/-- Value of a painted row at one minute: sequential slot paints of
`_build_lookup_table` are last-write-wins over the base cell value. -/
def rowFold {DT S D P : Type} [DecidableEq P] (prof : TariffProfileM DT S D P)
    (slots : List (TimeSlotM P)) (base : ℕ) (m : ℕ) : ℕ :=
  slots.foldl
    (fun v slot => if paintCond slot m then periodCode prof slot.period else v)
    base

lemma paintFold_apply {DT S D P : Type} [DecidableEq P]
    (prof : TariffProfileM DT S D P) (i j : ℕ) :
    ∀ (slots : List (TimeSlotM P)) (tbl : ℕ → ℕ → ℕ → ℕ) (a b m : ℕ),
      (slots.foldl
        (fun tbl slot => paintSlot tbl i j slot (periodCode prof slot.period))
        tbl) a b m =
      if a = i ∧ b = j then rowFold prof slots (tbl a b m) m else tbl a b m := by
  intro slots
  induction slots with
  | nil =>
    intro tbl a b m
    by_cases h : a = i ∧ b = j <;> simp [rowFold, h]
  | cons s rest ih =>
    intro tbl a b m
    rw [List.foldl_cons, ih]
    by_cases h : a = i ∧ b = j
    · obtain ⟨ha, hb⟩ := h
      subst ha
      subst hb
      simp only [and_self, if_true, rowFold, List.foldl_cons, paintSlot, true_and]
    · simp only [h, if_false, paintSlot]
      have : ¬(a = i ∧ b = j ∧ paintCond s m = true) := by tauto
      rw [if_neg this]

lemma outerStep_other_key {DT S D P : Type} [DecidableEq S] [DecidableEq D] [DecidableEq P]
    (prof : TariffProfileM DT S D P) {s : S} {d : D} {sIdx dIdx : ℕ}
    (hs : firstIdx prof.allSeasons s = some sIdx)
    (hd : firstIdx prof.allDayTypes d = some dIdx)
    (e : (S × D) × DayScheduleM P) (hne : e.1 ≠ (s, d))
    (tbl : ℕ → ℕ → ℕ → ℕ) (m : ℕ) :
    (match firstIdx prof.allSeasons e.1.1, firstIdx prof.allDayTypes e.1.2 with
      | some sIdx2, some dIdx2 =>
        e.2.slots.foldl
          (fun tbl slot => paintSlot tbl sIdx2 dIdx2 slot (periodCode prof slot.period))
          tbl
      | _, _ => tbl) sIdx dIdx m = tbl sIdx dIdx m := by
  cases hfs : firstIdx prof.allSeasons e.1.1 with
  | none =>
    cases hfd : firstIdx prof.allDayTypes e.1.2 <;> rfl
  | some i =>
    cases hfd : firstIdx prof.allDayTypes e.1.2 with
    | none => rfl
    | some j =>
      simp only
      rw [paintFold_apply]
      have hcond : ¬(sIdx = i ∧ dIdx = j) := by
        rintro ⟨hi, hj⟩
        subst hi
        subst hj
        exact hne (Prod.ext (firstIdx_inj hfs hs).symm (firstIdx_inj hfd hd).symm).symm
      rw [if_neg hcond]

lemma scheduleFold_no_key {DT S D P : Type} [DecidableEq S] [DecidableEq D] [DecidableEq P]
    (prof : TariffProfileM DT S D P) {s : S} {d : D} {sIdx dIdx : ℕ}
    (hs : firstIdx prof.allSeasons s = some sIdx)
    (hd : firstIdx prof.allDayTypes d = some dIdx) :
    ∀ (entries : List ((S × D) × DayScheduleM P)),
      (∀ e ∈ entries, e.1 ≠ (s, d)) →
      ∀ (tbl : ℕ → ℕ → ℕ → ℕ) (m : ℕ),
        (entries.foldl
          (fun tbl entry =>
            match firstIdx prof.allSeasons entry.1.1,
                firstIdx prof.allDayTypes entry.1.2 with
            | some sIdx2, some dIdx2 =>
              entry.2.slots.foldl
                (fun tbl slot =>
                  paintSlot tbl sIdx2 dIdx2 slot (periodCode prof slot.period))
                tbl
            | _, _ => tbl)
          tbl) sIdx dIdx m = tbl sIdx dIdx m := by
  intro entries
  induction entries with
  | nil => intro _ tbl m; rfl
  | cons e rest ih =>
    intro hkeys tbl m
    rw [List.foldl_cons]
    rw [ih (fun x hx => hkeys x (List.mem_cons_of_mem e hx))]
    exact outerStep_other_key prof hs hd e (hkeys e (List.mem_cons_self e rest)) tbl m

lemma scheduleFold_at {DT S D P : Type} [DecidableEq S] [DecidableEq D] [DecidableEq P]
    (prof : TariffProfileM DT S D P) {s : S} {d : D} {sIdx dIdx : ℕ}
    (hs : firstIdx prof.allSeasons s = some sIdx)
    (hd : firstIdx prof.allDayTypes d = some dIdx) :
    ∀ (entries : List ((S × D) × DayScheduleM P)),
      (entries.map Prod.fst).Nodup →
      ∀ (tbl : ℕ → ℕ → ℕ → ℕ) (m : ℕ),
        (entries.foldl
          (fun tbl entry =>
            match firstIdx prof.allSeasons entry.1.1,
                firstIdx prof.allDayTypes entry.1.2 with
            | some sIdx2, some dIdx2 =>
              entry.2.slots.foldl
                (fun tbl slot =>
                  paintSlot tbl sIdx2 dIdx2 slot (periodCode prof slot.period))
                tbl
            | _, _ => tbl)
          tbl) sIdx dIdx m =
        (match lookupSchedule entries (s, d) with
          | none => tbl sIdx dIdx m
          | some sched => rowFold prof sched.slots (tbl sIdx dIdx m) m) := by
  intro entries
  induction entries with
  | nil => intro _ tbl m; rfl
  | cons e rest ih =>
    intro hnd tbl m
    rw [List.map_cons, List.nodup_cons] at hnd
    obtain ⟨hnotin, hndrest⟩ := hnd
    rw [List.foldl_cons]
    by_cases hkey : e.1 = (s, d)
    · have hlook : lookupSchedule (e :: rest) (s, d) = some e.2 := by
        obtain ⟨k, sched⟩ := e
        have hk : k = (s, d) := hkey
        simp [lookupSchedule, hk]
      rw [hlook]
      have hrest : ∀ x ∈ rest, x.1 ≠ (s, d) := by
        intro x hx hx1
        exact hnotin (hkey ▸ hx1 ▸ List.mem_map_of_mem Prod.fst hx)
      rw [scheduleFold_no_key prof hs hd rest hrest]
      have hfs : firstIdx prof.allSeasons e.1.1 = some sIdx := by
        rw [show e.1.1 = s from congrArg Prod.fst hkey]
        exact hs
      have hfd : firstIdx prof.allDayTypes e.1.2 = some dIdx := by
        rw [show e.1.2 = d from congrArg Prod.snd hkey]
        exact hd
      rw [hfs, hfd]
      simp only
      rw [paintFold_apply]
      simp
    · have hlook : lookupSchedule (e :: rest) (s, d) = lookupSchedule rest (s, d) := by
        obtain ⟨k, sched⟩ := e
        have hk : ¬(k = (s, d)) := hkey
        simp [lookupSchedule, hk]
      rw [hlook, ih hndrest]
      have hstep := outerStep_other_key prof hs hd e hkey tbl m
      cases hlr : lookupSchedule rest (s, d) with
      | none => exact hstep
      | some sched2 =>
        exact congrArg (fun v => rowFold prof sched2.slots v m) hstep

/-- Well-formedness of a day schedule's slots: no slot with
`start == end` (the degenerate "24:00" slot that the paint and the scalar
scan interpret differently). -/
def slotsWellFormed {P : Type} (slots : List (TimeSlotM P)) : Bool :=
  slots.all (fun a => decide (a.startMin ≠ a.stopMin))

/-- Two slots clash when some minute of the day is painted by both. -/
def slotClash {P : Type} (a b : TimeSlotM P) : Bool :=
  (List.range 1440).any (fun m => paintCond a m && paintCond b m)

/-- Pairwise disjointness of a schedule's slots over the 1440-minute day. -/
def slotsDisjoint {P : Type} : List (TimeSlotM P) → Bool
  | [] => true
  | a :: rest => rest.all (fun b => !slotClash a b) && slotsDisjoint rest

lemma slot_match_eq_paint {P : Type} (a : TimeSlotM P)
    (h : a.startMin ≠ a.stopMin) (m : ℕ) :
    (slotMatchLinear a m || slotMatchWrap a m) = paintCond a m := by
  simp only [slotMatchLinear, slotMatchWrap, paintCond]
  rcases Nat.lt_trichotomy a.startMin a.stopMin with hlt | heq | hgt
  · rw [if_pos hlt]
    have hng : ¬(a.stopMin < a.startMin) := by omega
    simp [hng]
  · exact absurd heq h
  · rw [if_neg (by omega : ¬ a.startMin < a.stopMin)]
    have h1 : (decide (a.stopMin < a.startMin)) = true := by simp [hgt]
    rw [h1, Bool.true_and]
    by_cases h2 : a.startMin ≤ m
    · by_cases h3 : m < a.stopMin
      · omega
      · simp [h2, h3]
    · simp [h2]

/-- First slot whose painted minute set contains `m`. -/
def findCover {P : Type} : List (TimeSlotM P) → ℕ → Option (TimeSlotM P)
  | [], _ => none
  | a :: rest, m => if paintCond a m then some a else findCover rest m

lemma findCover_mem {P : Type} {m : ℕ} :
    ∀ {slots : List (TimeSlotM P)} {u : TimeSlotM P},
      findCover slots m = some u → u ∈ slots := by
  intro slots
  induction slots with
  | nil => intro u h; simp [findCover] at h
  | cons a rest ih =>
    intro u h
    rw [findCover] at h
    by_cases hc : paintCond a m = true
    · rw [if_pos hc] at h
      injection h with h
      exact h ▸ List.mem_cons_self a rest
    · rw [if_neg hc] at h
      exact List.mem_cons_of_mem a (ih h)

lemma findCover_none {P : Type} {m : ℕ} :
    ∀ {slots : List (TimeSlotM P)},
      (∀ u ∈ slots, paintCond u m = false) → findCover slots m = none := by
  intro slots
  induction slots with
  | nil => intro _; rfl
  | cons a rest ih =>
    intro h
    rw [findCover]
    have ha : paintCond a m = false := h a (List.mem_cons_self a rest)
    rw [ha]
    simpa using ih (fun u hu => h u (List.mem_cons_of_mem a hu))

lemma findSlotType_eq_findCover {P : Type} (m : ℕ) :
    ∀ (slots : List (TimeSlotM P)) (dflt : P),
      slotsWellFormed slots = true →
      findSlotType m slots dflt =
        (match findCover slots m with
          | some u => u.period
          | none => dflt) := by
  intro slots
  induction slots with
  | nil => intro dflt _; rfl
  | cons a rest ih =>
    intro dflt hwf
    rw [slotsWellFormed, List.all_cons, Bool.and_eq_true] at hwf
    obtain ⟨ha, hrest⟩ := hwf
    have hne : a.startMin ≠ a.stopMin := of_decide_eq_true ha
    have hmatch := slot_match_eq_paint a hne m
    rw [findSlotType, findCover]
    by_cases hc : paintCond a m = true
    · rw [if_pos hc]
      rw [hc] at hmatch
      rcases Bool.or_eq_true_iff.mp hmatch with hl | hw
      · simp [hl]
      · by_cases hl2 : slotMatchLinear a m = true
        · simp [hl2]
        · simp only [Bool.not_eq_true] at hl2
          simp [hl2, hw]
    · rw [if_neg hc]
      have hc2 : paintCond a m = false := Bool.not_eq_true _ ▸ hc
      rw [hc2] at hmatch
      rcases Bool.or_eq_false_iff.mp hmatch with ⟨hl, hw⟩
      rw [hl, hw]
      simpa using ih dflt hrest

lemma slotClash_of_both {P : Type} {a b : TimeSlotM P} {m : ℕ} (hm : m < 1440)
    (ha : paintCond a m = true) (hb : paintCond b m = true) :
    slotClash a b = true := by
  rw [slotClash, List.any_eq_true]
  exact ⟨m, List.mem_range.mpr hm, by rw [ha, hb]; rfl⟩

lemma rowFold_disjoint {DT S D P : Type} [DecidableEq P]
    (prof : TariffProfileM DT S D P) {m : ℕ} (hm : m < 1440) :
    ∀ (slots : List (TimeSlotM P)), slotsDisjoint slots = true →
      ∀ v : ℕ,
        rowFold prof slots v m =
          (match findCover slots m with
            | some u => periodCode prof u.period
            | none => v) := by
  intro slots
  induction slots with
  | nil => intro _ v; rfl
  | cons a rest ih =>
    intro hdisj v
    rw [slotsDisjoint, Bool.and_eq_true] at hdisj
    obtain ⟨hall, hrest⟩ := hdisj
    rw [rowFold, List.foldl_cons, findCover]
    by_cases hc : paintCond a m = true
    · rw [if_pos hc, if_pos hc]
      have hnone : findCover rest m = none := by
        apply findCover_none
        intro u hu
        by_contra hcu
        rw [Bool.not_eq_false] at hcu
        have := List.all_eq_true.mp hall u hu
        rw [slotClash_of_both hm hc hcu] at this
        exact absurd this (by simp)
      have := ih hrest (periodCode prof a.period)
      rw [rowFold] at this
      rw [this, hnone]
    · rw [if_neg hc, if_neg hc]
      have := ih hrest v
      rw [rowFold] at this
      rw [this]

lemma lookupSchedule_mem {S D P : Type} [DecidableEq S] [DecidableEq D] :
    ∀ (entries : List ((S × D) × DayScheduleM P)) (key : S × D)
      (sched : DayScheduleM P),
      lookupSchedule entries key = some sched → (key, sched) ∈ entries := by
  intro entries
  induction entries with
  | nil => intro key sched h; simp [lookupSchedule] at h
  | cons e rest ih =>
    intro key sched h
    obtain ⟨k, sc⟩ := e
    rw [lookupSchedule] at h
    by_cases hk : k = key
    · rw [if_pos hk] at h
      injection h with h
      exact hk ▸ h ▸ List.mem_cons_self _ _
    · rw [if_neg hk] at h
      exact List.mem_cons_of_mem _ (ih key sched h)

/-- C2 (amended): batch resolution on a one-element index agrees with scalar
resolution for every profile whose schedule dict has distinct keys (as every
Python dict does), whose day schedules contain no `start == end` slot and no
two slots painting a common minute (midnight-wrapping slots included), at
every timestamp whose season and day-type occur in the strategy
enumerations. -/
theorem batch_scalar_equiv {DT S D P : Type} [DecidableEq S] [DecidableEq D] [DecidableEq P]
    (prof : TariffProfileM DT S D P) (t : TimestampM DT)
    (hmin : t.minuteOfDay < 1440)
    (hS : prof.seasonOf t.date ∈ prof.allSeasons)
    (hD : prof.dayTypeOf t.date ∈ prof.allDayTypes)
    (hKeys : (prof.schedules.map Prod.fst).Nodup)
    (hWF : ∀ e ∈ prof.schedules,
      slotsWellFormed e.2.slots = true ∧ slotsDisjoint e.2.slots = true) :
    evaluateSingle prof t = get_period_type_scalar prof t := by
  obtain ⟨sIdx, hs⟩ := firstIdx_exists hS
  obtain ⟨dIdx, hd⟩ := firstIdx_exists hD
  show (buildPeriodTypes prof).getD
      (buildLookupTable prof ((firstIdx prof.allSeasons (prof.seasonOf t.date)).getD 0)
        ((firstIdx prof.allDayTypes (prof.dayTypeOf t.date)).getD 0) t.minuteOfDay)
      prof.default_period =
    (match lookupSchedule prof.schedules (prof.seasonOf t.date, prof.dayTypeOf t.date) with
      | none => prof.default_period
      | some sched => findSlotType t.minuteOfDay sched.slots prof.default_period)
  rw [hs, hd]
  simp only [Option.getD_some]
  have h2 : buildLookupTable prof sIdx dIdx t.minuteOfDay =
      (match lookupSchedule prof.schedules (prof.seasonOf t.date, prof.dayTypeOf t.date) with
        | none => 0
        | some sched => rowFold prof sched.slots 0 t.minuteOfDay) :=
    scheduleFold_at prof hs hd prof.schedules hKeys (fun _ _ _ => 0) t.minuteOfDay
  rw [h2]
  cases hlook : lookupSchedule prof.schedules (prof.seasonOf t.date, prof.dayTypeOf t.date) with
  | none =>
    show (buildPeriodTypes prof).getD 0 prof.default_period = prof.default_period
    obtain ⟨ext, hext⟩ := buildPeriodTypes_head prof
    simp [hext]
  | some sched =>
    show (buildPeriodTypes prof).getD (rowFold prof sched.slots 0 t.minuteOfDay)
        prof.default_period =
      findSlotType t.minuteOfDay sched.slots prof.default_period
    have hment := lookupSchedule_mem prof.schedules _ sched hlook
    obtain ⟨hwf, hdisj⟩ := hWF _ hment
    rw [findSlotType_eq_findCover t.minuteOfDay sched.slots prof.default_period hwf]
    rw [rowFold_disjoint prof hmin sched.slots hdisj 0]
    cases hcov : findCover sched.slots t.minuteOfDay with
    | none =>
      show (buildPeriodTypes prof).getD 0 prof.default_period = prof.default_period
      obtain ⟨ext, hext⟩ := buildPeriodTypes_head prof
      simp [hext]
    | some u =>
      have humem : u ∈ sched.slots := findCover_mem hcov
      have hpmem : u.period ∈ buildPeriodTypes prof :=
        buildPeriodTypes_mem prof _ hment u humem
      obtain ⟨k, hk⟩ := firstIdx_exists hpmem
      simp only [periodCode, hk, Option.getD_some]
      exact firstIdx_getD hk prof.default_period

/-- Two-slot well-formed profile: day slot [09:00, 18:00) with period 1 and
a midnight-wrapping slot [18:00, 09:00) with period 2; default period 0. -/
def twoSlotProfile : TariffProfileM ℕ ℕ ℕ ℕ :=
  { seasonOf := fun _ => 0
    allSeasons := [0]
    dayTypeOf := fun _ => 0
    allDayTypes := [0]
    schedules := [((0, 0), ⟨[⟨540, 1080, 1⟩, ⟨1080, 540, 2⟩]⟩)]
    default_period := 0 }

set_option maxRecDepth 40000 in
theorem batch_scalar_equiv_witness :
    ((⟨0, 10, 30⟩ : TimestampM ℕ).minuteOfDay < 1440) ∧
    twoSlotProfile.seasonOf 0 ∈ twoSlotProfile.allSeasons ∧
    twoSlotProfile.dayTypeOf 0 ∈ twoSlotProfile.allDayTypes ∧
    (twoSlotProfile.schedules.map Prod.fst).Nodup ∧
    (∀ e ∈ twoSlotProfile.schedules,
      slotsWellFormed e.2.slots = true ∧ slotsDisjoint e.2.slots = true) ∧
    evaluateSingle twoSlotProfile ⟨0, 10, 30⟩ =
      get_period_type_scalar twoSlotProfile ⟨0, 10, 30⟩ :=
  ⟨by decide, by decide, by decide, by decide, by decide,
    batch_scalar_equiv twoSlotProfile ⟨0, 10, 30⟩ (by decide) (by decide) (by decide)
      (by decide) (by decide)⟩
